import Mathlib

/-!
Shallow embedding of the CRUD statement engine in `src/db.go` (package
`entity`): dialect resolution, identifier quoting, SQL statement builders,
per-type statement caches, and the load/insert/update/delete execution
protocol, together with theorems settling the frozen claims about it.

Go strings are modelled as Lean `String` (a wrapper around `List Char`);
Go library helpers used by the source (`strings.Join`, `strings.Split`,
`strings.ReplaceAll`, `strings.Contains`, `fmt.Errorf` with a `%w` verb,
`fmt.Sprintf` with `%q`) are modelled by executable Lean functions defined
below next to their first use.
-/

namespace Entity

/-! ## Basic string helpers (models of Go standard library functions) -/

/-- Model of Go `strings.Join(elems, sep)`: concatenation with `sep`
between consecutive elements, no leading or trailing separator. -/
def sepJoin (sep : String) : List String → String
  | [] => ""
  | [x] => x
  | x :: xs => x ++ sep ++ sepJoin sep xs

/-- Concatenation of a list of strings (used to state closed forms of the
string-building loops). -/
def strConcat : List String → String
  | [] => ""
  | s :: ss => s ++ strConcat ss

/-- Model of Go `strings.Contains(s, sub)` on the underlying character
lists. -/
def strContains (s sub : String) : Bool :=
  go s.toList sub.toList
where
  go : List Char → List Char → Bool
    | s, sub =>
      if sub.isPrefixOf s then true
      else match s with
        | [] => false
        | _ :: rest => go rest sub

/-- Removing every occurrence of character `q`: the model of
Go `strings.ReplaceAll(name, symbol, "")` for the one-character quote
symbol used by `quoteIdentifier` (src/db.go:311). -/
def removeChar (q : Char) : List Char → List Char
  | [] => []
  | c :: cs => if c = q then removeChar q cs else c :: removeChar q cs

/-- Model of Go `strings.Split(s, sep)` for a one-character separator
(src/db.go:312 splits on "."): always returns at least one part, parts
do not contain the separator. -/
def splitOnChar (sep : Char) : List Char → List (List Char)
  | [] => [[]]
  | c :: cs =>
    let r := splitOnChar sep cs
    if c = sep then [] :: r else (c :: r.headI) :: r.tail

/-- Model of Go `strings.Join(parts, sep)` for a one-character separator
on character lists (src/db.go:319 joins with "."). -/
def joinWith (sep : Char) : List (List Char) → List Char
  | [] => []
  | [p] => p
  | p :: ps => p ++ sep :: joinWith sep ps

/-! ## Dialect constants and resolution (src/db.go:19-26, 47-53) -/

def driverMysql : String := "mysql"
def driverPostgres : String := "postgres"
def driverSqlite3 : String := "sqlite3"

/-- The `driverAlias` map (src/db.go:23-25): "pgx" is an alias of the
PostgreSQL dialect. -/
def driverAlias : List (String × String) := [("pgx", driverPostgres)]

/-! ## Data model

`Column` and `Metadata` are the per-entity-type descriptors consumed by
the statement builders. Their extraction lives outside src/ (the spec's
"metadata extraction subsystem"); the fields below are the ones db.go
reads. `reflect.Type`, the cache key, is modelled as a `Nat` identity. -/

structure Column where
  DBField : String
  AutoIncrement : Bool := false
  ReturningInsert : Bool := false
  ReturningUpdate : Bool := false
  RefuseUpdate : Bool := false
deriving DecidableEq, Repr

structure Metadata where
  type : Nat
  TableName : String
  Columns : List Column
  PrimaryKeys : List Column
deriving DecidableEq, Repr

/-- Modelled from the spec: `hasReturningInsert` is a precomputed boolean
produced by the metadata subsystem (not under src/), "true iff any Column
is flagged ReturningInsert". -/
def Metadata.hasReturningInsert (md : Metadata) : Bool :=
  md.Columns.any (·.ReturningInsert)

/-- Modelled from the spec: `hasReturningUpdate` is a precomputed boolean
produced by the metadata subsystem (not under src/), "true iff any Column
is flagged ReturningUpdate". -/
def Metadata.hasReturningUpdate (md : Metadata) : Bool :=
  md.Columns.any (·.ReturningUpdate)

/-! ## Go errors

`GoErr` models Go `error` values as they appear in db.go: the sentinel
`sql.ErrNoRows`, driver errors carrying a message, and wrapped errors
produced by `fmt.Errorf("..., %w", err)`. A Go `nil` error is modelled
as `none : Option GoErr`. -/

inductive GoErr where
  | sqlErrNoRows : GoErr
  | simple (msg : String) : GoErr
  | wrap (pre : String) (inner : GoErr) : GoErr
deriving DecidableEq, Repr

/-- The `Error()` message of a modelled Go error. `sql.ErrNoRows` carries
the standard library text. -/
def GoErr.message : GoErr → String
  | .sqlErrNoRows => "sql: no rows in result set"
  | .simple m => m
  | .wrap pre inner => pre ++ inner.message

/-- Model of Go `fmt.Errorf(pre ++ "%w", e)` applied to a possibly-nil
error `e`. `fmt.Errorf` never returns a nil error: when `e` is nil the
`%w` verb renders as the literal text `%!w(<nil>)` and nothing is
wrapped. -/
def fmtErrorfW (pre : String) (e : Option GoErr) : GoErr :=
  match e with
  | some err => .wrap pre err
  | none => .simple (pre ++ "%!w(<nil>)")

/-! ## Database handle

`DBConn` models the `DB` interface as db.go observes it: a driver name,
and per-statement outcomes of `sqlx.NamedQueryContext` (row-returning)
and `NamedExecContext` (command execution). The outcome of executing a
statement is a function of the statement text, so theorems can observe
which statement text a call executes. -/

/-- The observable behaviour of a `*sqlx.Rows` value as db.go consumes
it: whether `rows.Next()` yields a first row, the result of
`rows.StructScan(ent)`, and the result of `rows.Err()`. -/
structure QueryRows where
  hasRow : Bool
  scanErr : Option GoErr
  rowsErr : Option GoErr
deriving DecidableEq, Repr

/-- The observable behaviour of a `sql.Result`: the pairs returned by
`LastInsertId()` and `RowsAffected()`. -/
structure ExecResult where
  lastId : Int
  lastIdErr : Option GoErr
  affected : Int
  affectedErr : Option GoErr
deriving DecidableEq, Repr

structure DBConn where
  DriverName : String
  query : String → Except GoErr QueryRows
  exec : String → Except GoErr ExecResult

/-- Embedding of `dbDriver` (src/db.go:47-53): resolve the driver name through the
alias table; unknown names pass through unchanged. -/
def dbDriver (db : DBConn) : String :=
  match driverAlias.lookup db.DriverName with
  | some v => v
  | none => db.DriverName

/-- Embedding of `isConflictError` (src/db.go:55-67). -/
def isConflictError (db : DBConn) (err : GoErr) : Bool :=
  let driver := dbDriver db
  let s := err.message
  if driver = driverPostgres then
    strContains s "duplicate key value violates unique constraint"
  else if driver = driverMysql then
    strContains s "Duplicate entry"
  else if driver = driverSqlite3 then
    strContains s "UNIQUE constraint failed"
  else false

/-! ## Identifier quoting (src/db.go:297-320) -/

/-- The double-quote character. -/
def dq : Char := Char.ofNat 34

/-- The backtick character. -/
def bq : Char := Char.ofNat 96

/-- Hexadecimal digit used by Go's lower-case `%x`-style escapes. -/
def hexDigit (n : Nat) : Char :=
  Char.ofNat (if n < 10 then 48 + n else 87 + n)

/-- The escape Go's `strconv.Quote` (the `%q` verb of src/db.go:301)
produces for one character: the quote character and backslash are
backslash-escaped, printable characters stand for themselves, control
characters get their named or hexadecimal escapes. Runes at or above
0x80 are modelled as printable and stand for themselves. -/
def goQuoteChar (c : Char) : List Char :=
  if c = dq then [Char.ofNat 92, dq]
  else if c = Char.ofNat 92 then [Char.ofNat 92, Char.ofNat 92]
  else if c = Char.ofNat 7 then [Char.ofNat 92, 'a']
  else if c = Char.ofNat 8 then [Char.ofNat 92, 'b']
  else if c = Char.ofNat 12 then [Char.ofNat 92, 'f']
  else if c = Char.ofNat 10 then [Char.ofNat 92, 'n']
  else if c = Char.ofNat 13 then [Char.ofNat 92, 'r']
  else if c = Char.ofNat 9 then [Char.ofNat 92, 't']
  else if c = Char.ofNat 11 then [Char.ofNat 92, 'v']
  else if c.toNat < 32 ∨ c.toNat = 127 then
    [Char.ofNat 92, 'x', hexDigit (c.toNat / 16), hexDigit (c.toNat % 16)]
  else [c]

/-- Model of Go `fmt.Sprintf("%q", s)` (`strconv.Quote`): the input with
each character escaped, wrapped in double quotes. -/
def goQuote (s : String) : String :=
  String.mk (dq :: ((s.toList.map goQuoteChar).flatten ++ [dq]))

/-- Embedding of `quoteColumn` (src/db.go:297-302): backticks for the MySQL dialect,
Go `%q` (double quotes) otherwise. -/
def quoteColumn (name : String) (driver : String) : String :=
  if driver = driverMysql then "`" ++ name ++ "`"
  else goQuote name

/-- The quote symbol chosen by `quoteIdentifier` (src/db.go:305-308):
a backtick for MySQL, a double quote otherwise. The Go code holds it as
a one-character string; it is modelled as a `Char`. -/
def quoteSym (driver : String) : Char :=
  if driver = driverMysql then bq else dq

/-- Embedding of `quoteIdentifier` (src/db.go:304-320): strip every occurrence of the
dialect's quote symbol, split on dots, wrap each segment other than `*`
in the symbol, and rejoin with dots. -/
def quoteIdentifier (name : String) (driver : String) : String :=
  let sym := quoteSym driver
  String.mk (joinWith '.'
    (((splitOnChar '.' (removeChar sym name.toList))).map
      (fun s => if s = ['*'] then s else sym :: (s ++ [sym]))))

/-! ## Statement builders (src/db.go:203-295) -/

/-- The text `fmt.Sprintf("%s = :%s", quoteColumn(col.DBField, driver),
col.DBField)` shared by every primary-key equality predicate and SET
item. -/
def eqItem (driver : String) (col : Column) : String :=
  quoteColumn col.DBField driver ++ " = :" ++ col.DBField

/-- One iteration of the `for i, col := range md.PrimaryKeys` loop of
`selectStatement` (src/db.go:210-216) and `deleteStatement`
(src/db.go:286-292): the first predicate is preceded by a space, later
ones by ` AND `. -/
def selPkStep (driver : String) (acc : String) (ic : Nat × Column) : String :=
  if ic.1 = 0 then acc ++ (" " ++ eqItem driver ic.2)
  else acc ++ (" AND " ++ eqItem driver ic.2)

/-- Embedding of `selectStatement` (src/db.go:203-220). -/
def selectStatement (md : Metadata) (driver : String) : String :=
  let columns := md.Columns.map (fun col => quoteColumn col.DBField driver)
  let stmt := "SELECT " ++ sepJoin ", " columns ++ " FROM "
    ++ quoteIdentifier md.TableName driver ++ " WHERE"
  let stmt := List.foldl (selPkStep driver) stmt md.PrimaryKeys.enum
  stmt ++ " LIMIT 1"

/-- One iteration of the column loop of `insertStatement`
(src/db.go:227-235), carried over the state
`(columns, returnings, placeholder)`. -/
def insStep (driver : String) (st : List String × List String × List String)
    (col : Column) : List String × List String × List String :=
  match st with
  | (columns, returnings, placeholder) =>
    if col.ReturningInsert then
      (columns, returnings ++ [quoteColumn col.DBField driver], placeholder)
    else if !col.AutoIncrement then
      (columns ++ [quoteColumn col.DBField driver], returnings,
       placeholder ++ [":" ++ col.DBField])
    else (columns, returnings, placeholder)

/-- Embedding of `insertStatement` (src/db.go:222-249). -/
def insertStatement (md : Metadata) (driver : String) : String :=
  let st := md.Columns.foldl (insStep driver) ([], [], [])
  let stmt := "INSERT INTO " ++ quoteIdentifier md.TableName driver
    ++ " (" ++ sepJoin ", " st.1 ++ ") VALUES (" ++ sepJoin ", " st.2.2 ++ ")"
  if st.2.1.length > 0 then stmt ++ (" RETURNING " ++ sepJoin ", " st.2.1)
  else stmt

/-- One iteration of the column loop of `updateStatement`
(src/db.go:256-267), carried over the state `(returnings, stmt, set)`:
`set` records whether a SET item has been emitted, so that only the
first item lacks a leading comma. -/
def updSetStep (driver : String) (st : List String × String × Bool)
    (col : Column) : List String × String × Bool :=
  match st with
  | (returnings, stmt, set) =>
    if col.ReturningUpdate then
      (returnings ++ [quoteColumn col.DBField driver], stmt, set)
    else if !col.RefuseUpdate then
      if set then (returnings, stmt ++ (", " ++ eqItem driver col), set)
      else (returnings, stmt ++ (" " ++ eqItem driver col), true)
    else (returnings, stmt, set)

/-- One iteration of the `for i, col := range md.PrimaryKeys` loop of
`updateStatement` (src/db.go:269-275): the first predicate is preceded
by ` WHERE `, later ones by ` AND `. -/
def updPkStep (driver : String) (acc : String) (ic : Nat × Column) : String :=
  if ic.1 = 0 then acc ++ (" WHERE " ++ eqItem driver ic.2)
  else acc ++ (" AND " ++ eqItem driver ic.2)

/-- Embedding of `updateStatement` (src/db.go:251-282). -/
def updateStatement (md : Metadata) (driver : String) : String :=
  let st := md.Columns.foldl (updSetStep driver)
    ([], "UPDATE " ++ quoteIdentifier md.TableName driver ++ " SET", false)
  let stmt := List.foldl (updPkStep driver) st.2.1 md.PrimaryKeys.enum
  if st.1.length > 0 then stmt ++ (" RETURNING " ++ sepJoin ", " st.1)
  else stmt

/-- Embedding of `deleteStatement` (src/db.go:284-295). -/
def deleteStatement (md : Metadata) (driver : String) : String :=
  let stmt := "DELETE FROM " ++ quoteIdentifier md.TableName driver ++ " WHERE"
  List.foldl (selPkStep driver) stmt md.PrimaryKeys.enum

/-! ## Statement caches (src/db.go:13-17)

The four global maps `selectStatements` / `insertStatements` /
`updateStatements` / `deleteStatements` are `map[reflect.Type]string`
values; each is modelled as an association list from the type identity
to the statement text, threaded through the operations explicitly. -/

abbrev StmtCache := List (Nat × String)

/-- The cache consultation pattern of the four `do*` functions
(e.g. src/db.go:75-79): on a hit return the cached text, on a miss
build, store, and return. -/
def getOrBuild (cache : StmtCache) (t : Nat) (stmt : String) :
    String × StmtCache :=
  match cache.lookup t with
  | some s => (s, cache)
  | none => (stmt, (t, stmt) :: cache)

/-! ## Execution protocol (src/db.go:69-201) -/

/-- The row-consumption pattern repeated by `doLoad` (src/db.go:87-95)
and the returning branches of `doInsert` / `doUpdate`: no first row
yields `sql.ErrNoRows`; a scan failure is wrapped with "scan struct, ";
otherwise `rows.Err()` is returned. -/
def rowScanResult (rows : QueryRows) : Option GoErr :=
  if rows.hasRow then
    match rows.scanErr with
    | some e => some (fmtErrorfW "scan struct, " (some e))
    | none => rows.rowsErr
  else some .sqlErrNoRows

/-- The query-and-scan tail of `doLoad` (src/db.go:81-95) applied to a
statement text. -/
def loadExec (db : DBConn) (stmt : String) : Option GoErr :=
  match db.query stmt with
  | .error e => some e
  | .ok rows => rowScanResult rows

/-- Embedding of `doLoad` (src/db.go:69-96). The metadata argument is the result of
`getMetadata(ent)`; the select cache is passed and returned
explicitly. -/
def doLoad (mdR : Except GoErr Metadata) (db : DBConn) (cache : StmtCache) :
    Option GoErr × StmtCache :=
  match mdR with
  | .error e => (some (fmtErrorfW "get metadata, " (some e)), cache)
  | .ok md =>
    let sc := getOrBuild cache md.type (selectStatement md (dbDriver db))
    (loadExec db sc.1, sc.2)

/-- The execution tail of `doInsert` (src/db.go:110-139) applied to a
statement text: the returning branch queries and scans one row; the
plain branch executes, suppresses the last-insert id for PostgreSQL,
and otherwise returns `result.LastInsertId()` with its error wrapped by
`fmt.Errorf("get last insert id, %w", err)` - unconditionally, even
when that error is nil. -/
def insertExec (md : Metadata) (db : DBConn) (stmt : String) :
    Int × Option GoErr :=
  if md.hasReturningInsert then
    match db.query stmt with
    | .error e => (0, some e)
    | .ok rows => (0, rowScanResult rows)
  else
    match db.exec stmt with
    | .error e => (0, some e)
    | .ok result =>
      if dbDriver db = driverPostgres then (0, none)
      else (result.lastId,
        some (fmtErrorfW "get last insert id, " result.lastIdErr))

/-- Embedding of `doInsert` (src/db.go:98-140). -/
def doInsert (mdR : Except GoErr Metadata) (db : DBConn) (cache : StmtCache) :
    (Int × Option GoErr) × StmtCache :=
  match mdR with
  | .error e => ((0, some (fmtErrorfW "get metadata, " (some e))), cache)
  | .ok md =>
    let sc := getOrBuild cache md.type (insertStatement md (dbDriver db))
    (insertExec md db sc.1, sc.2)

/-- The execution tail of `doUpdate` (src/db.go:154-184) applied to a
statement text: the returning branch queries and scans one row; the
plain branch executes and maps a zero affected-row count to
`sql.ErrNoRows`. -/
def updateExec (md : Metadata) (db : DBConn) (stmt : String) : Option GoErr :=
  if md.hasReturningUpdate then
    match db.query stmt with
    | .error e => some e
    | .ok rows => rowScanResult rows
  else
    match db.exec stmt with
    | .error e => some e
    | .ok result =>
      match result.affectedErr with
      | some e => some (fmtErrorfW "get affected rows, " (some e))
      | none => if result.affected = 0 then some .sqlErrNoRows else none

/-- Embedding of `doUpdate` (src/db.go:142-185). -/
def doUpdate (mdR : Except GoErr Metadata) (db : DBConn) (cache : StmtCache) :
    Option GoErr × StmtCache :=
  match mdR with
  | .error e => (some (fmtErrorfW "get metadata, " (some e)), cache)
  | .ok md =>
    let sc := getOrBuild cache md.type (updateStatement md (dbDriver db))
    (updateExec md db sc.1, sc.2)

/-- The execution tail of `doDelete` (src/db.go:199-200) applied to a
statement text: executes the delete and returns the execution error
alone; the `sql.Result` is discarded, so the affected row count is
never inspected. -/
def deleteExec (db : DBConn) (stmt : String) : Option GoErr :=
  match db.exec stmt with
  | .error e => some e
  | .ok _ => none

/-- Embedding of `doDelete` (src/db.go:187-201). -/
def doDelete (mdR : Except GoErr Metadata) (db : DBConn) (cache : StmtCache) :
    Option GoErr × StmtCache :=
  match mdR with
  | .error e => (some (fmtErrorfW "get metadata, " (some e)), cache)
  | .ok md =>
    let sc := getOrBuild cache md.type (deleteStatement md (dbDriver db))
    (deleteExec db sc.1, sc.2)

/-! ## Closed forms used by the theorem statements -/

/-- The quoted non-returning, non-auto-increment columns of an insert:
the claim's "column list". -/
def insColsOf (driver : String) (cols : List Column) : List String :=
  (cols.filter (fun c => !c.ReturningInsert && !c.AutoIncrement)).map
    (fun c => quoteColumn c.DBField driver)

/-- The named placeholders of an insert: the claim's "placeholder
list". -/
def insPhsOf (cols : List Column) : List String :=
  (cols.filter (fun c => !c.ReturningInsert && !c.AutoIncrement)).map
    (fun c => ":" ++ c.DBField)

/-- The quoted RETURNING columns of an insert. -/
def insRetsOf (driver : String) (cols : List Column) : List String :=
  (cols.filter (fun c => c.ReturningInsert)).map
    (fun c => quoteColumn c.DBField driver)

/-- The quoted RETURNING columns of an update. -/
def updRetsOf (driver : String) (cols : List Column) : List String :=
  (cols.filter (fun c => c.ReturningUpdate)).map
    (fun c => quoteColumn c.DBField driver)

/-- The columns an update's SET clause names: neither ReturningUpdate
nor RefuseUpdate. -/
def setColsOf (cols : List Column) : List Column :=
  cols.filter (fun c => !c.ReturningUpdate && !c.RefuseUpdate)

/-- The SET-clause text contributed by the column loop of
`updateStatement`: empty for no items, otherwise a leading space, the
first item, and comma-prefixed later items. -/
def setClause (driver : String) : List Column → String
  | [] => ""
  | c :: cs =>
    " " ++ eqItem driver c ++ strConcat (cs.map (fun x => ", " ++ eqItem driver x))

/-- The AND-joined primary-key equality predicate shared by the select,
update and delete builders. -/
def pkPredicate (md : Metadata) (driver : String) : String :=
  sepJoin " AND " (md.PrimaryKeys.map (eqItem driver))

/-- What the primary-key loop of `selectStatement` / `deleteStatement`
appends after the bare `WHERE`: nothing for no keys, else a space and
the predicate. -/
def selWhereTail (md : Metadata) (driver : String) : String :=
  if md.PrimaryKeys = [] then "" else " " ++ pkPredicate md driver

/-- What the primary-key loop of `updateStatement` appends: nothing for
no keys, else ` WHERE ` and the predicate. -/
def updWhereTail (md : Metadata) (driver : String) : String :=
  if md.PrimaryKeys = [] then "" else " WHERE " ++ pkPredicate md driver

/-- The optional RETURNING clause appended when the returning list is
non-empty. -/
def retTail (rets : List String) : String :=
  if rets = [] then "" else " RETURNING " ++ sepJoin ", " rets

/-! ## String lemmas -/

theorem str_assoc (a b c : String) : a ++ b ++ c = a ++ (b ++ c) := by
  cases a; cases b; cases c
  exact congrArg String.mk (List.append_assoc _ _ _)

theorem str_append_empty (a : String) : a ++ "" = a := by
  cases a
  exact congrArg String.mk (List.append_nil _)

theorem sepJoin_cons_strConcat (sep : String) (x : String) (xs : List String) :
    sepJoin sep (x :: xs) = x ++ strConcat (xs.map (fun y => sep ++ y)) := by
  induction xs generalizing x with
  | nil => simp [sepJoin, strConcat, str_append_empty]
  | cons y ys ih =>
    show x ++ sep ++ sepJoin sep (y :: ys) = _
    rw [ih y]
    simp only [List.map_cons, strConcat]
    rw [str_assoc, str_assoc]

/-! ## Characterization of the primary-key loops -/

theorem selPkFold_enumFrom (driver : String) (ps : List Column) :
    ∀ (n : Nat) (acc : String),
      List.foldl (selPkStep driver) acc (List.enumFrom (n + 1) ps)
        = acc ++ strConcat (ps.map (fun c => " AND " ++ eqItem driver c)) := by
  induction ps with
  | nil => intro n acc; simp [strConcat, str_append_empty]
  | cons p ps ih =>
    intro n acc
    have he : List.enumFrom (n + 1) (p :: ps)
        = (n + 1, p) :: List.enumFrom (n + 2) ps := rfl
    rw [he]
    show List.foldl (selPkStep driver) (selPkStep driver acc (n + 1, p))
      (List.enumFrom (n + 2) ps) = _
    have hs : selPkStep driver acc (n + 1, p)
        = acc ++ (" AND " ++ eqItem driver p) := by
      simp [selPkStep]
    rw [hs, ih (n + 1)]
    simp only [List.map_cons, strConcat]
    rw [str_assoc]

theorem updPkFold_enumFrom (driver : String) (ps : List Column) :
    ∀ (n : Nat) (acc : String),
      List.foldl (updPkStep driver) acc (List.enumFrom (n + 1) ps)
        = acc ++ strConcat (ps.map (fun c => " AND " ++ eqItem driver c)) := by
  induction ps with
  | nil => intro n acc; simp [strConcat, str_append_empty]
  | cons p ps ih =>
    intro n acc
    have he : List.enumFrom (n + 1) (p :: ps)
        = (n + 1, p) :: List.enumFrom (n + 2) ps := rfl
    rw [he]
    show List.foldl (updPkStep driver) (updPkStep driver acc (n + 1, p))
      (List.enumFrom (n + 2) ps) = _
    have hs : updPkStep driver acc (n + 1, p)
        = acc ++ (" AND " ++ eqItem driver p) := by
      simp [updPkStep]
    rw [hs, ih (n + 1)]
    simp only [List.map_cons, strConcat]
    rw [str_assoc]

theorem selPkFold_list (driver : String) (pks : List Column) (acc : String) :
    List.foldl (selPkStep driver) acc pks.enum
      = acc ++ (if pks = [] then ""
        else " " ++ sepJoin " AND " (pks.map (eqItem driver))) := by
  cases pks with
  | nil => simp [List.enum, str_append_empty]
  | cons p ps =>
    show List.foldl (selPkStep driver) (selPkStep driver acc (0, p))
      (List.enumFrom 1 ps) = _
    have hs : selPkStep driver acc (0, p) = acc ++ (" " ++ eqItem driver p) := by
      simp [selPkStep]
    rw [hs]
    have h1 : List.enumFrom 1 ps = List.enumFrom (0 + 1) ps := rfl
    rw [h1, selPkFold_enumFrom]
    simp only [List.map_cons, sepJoin_cons_strConcat, reduceCtorEq, if_false,
      List.map_map, Function.comp_def]
    rw [str_assoc, str_assoc]

theorem updPkFold_list (driver : String) (pks : List Column) (acc : String) :
    List.foldl (updPkStep driver) acc pks.enum
      = acc ++ (if pks = [] then ""
        else " WHERE " ++ sepJoin " AND " (pks.map (eqItem driver))) := by
  cases pks with
  | nil => simp [List.enum, str_append_empty]
  | cons p ps =>
    show List.foldl (updPkStep driver) (updPkStep driver acc (0, p))
      (List.enumFrom 1 ps) = _
    have hs : updPkStep driver acc (0, p)
        = acc ++ (" WHERE " ++ eqItem driver p) := by
      simp [updPkStep]
    rw [hs]
    have h1 : List.enumFrom 1 ps = List.enumFrom (0 + 1) ps := rfl
    rw [h1, updPkFold_enumFrom]
    simp only [List.map_cons, sepJoin_cons_strConcat, reduceCtorEq, if_false,
      List.map_map, Function.comp_def]
    rw [str_assoc, str_assoc]

/-- The select/delete primary-key loop appends `selWhereTail`. -/
theorem selPkFold_eq (driver : String) (md : Metadata) (acc : String) :
    List.foldl (selPkStep driver) acc md.PrimaryKeys.enum
      = acc ++ selWhereTail md driver := by
  rw [selPkFold_list]
  simp [selWhereTail, pkPredicate]

/-- The update primary-key loop appends `updWhereTail`. -/
theorem updPkFold_eq (driver : String) (md : Metadata) (acc : String) :
    List.foldl (updPkStep driver) acc md.PrimaryKeys.enum
      = acc ++ updWhereTail md driver := by
  rw [updPkFold_list]
  simp [updWhereTail, pkPredicate]

/-- Closed form of `selectStatement`. -/
theorem selectStatement_eq (md : Metadata) (driver : String) :
    selectStatement md driver
      = "SELECT "
        ++ sepJoin ", " (md.Columns.map (fun c => quoteColumn c.DBField driver))
        ++ " FROM " ++ quoteIdentifier md.TableName driver ++ " WHERE"
        ++ selWhereTail md driver ++ " LIMIT 1" := by
  show List.foldl (selPkStep driver) _ md.PrimaryKeys.enum ++ " LIMIT 1" = _
  rw [selPkFold_eq]

/-- Closed form of `deleteStatement`. -/
theorem deleteStatement_eq (md : Metadata) (driver : String) :
    deleteStatement md driver
      = "DELETE FROM " ++ quoteIdentifier md.TableName driver ++ " WHERE"
        ++ selWhereTail md driver := by
  show List.foldl (selPkStep driver) _ md.PrimaryKeys.enum = _
  rw [selPkFold_eq]

/-! ## Characterization of the insert column loop -/

theorem insFold_eq (driver : String) (cols : List Column) :
    ∀ (cs rs ps : List String),
      cols.foldl (insStep driver) (cs, rs, ps)
        = (cs ++ insColsOf driver cols, rs ++ insRetsOf driver cols,
           ps ++ insPhsOf cols) := by
  induction cols with
  | nil => intro cs rs ps; simp [insColsOf, insRetsOf, insPhsOf]
  | cons c cols ih =>
    intro cs rs ps
    show cols.foldl (insStep driver) (insStep driver (cs, rs, ps) c) = _
    by_cases hri : c.ReturningInsert
    · have hs : insStep driver (cs, rs, ps) c
          = (cs, rs ++ [quoteColumn c.DBField driver], ps) := by
        simp [insStep, hri]
      rw [hs, ih]
      simp [insColsOf, insRetsOf, insPhsOf, hri, List.filter_cons]
    · by_cases hai : c.AutoIncrement
      · have hs : insStep driver (cs, rs, ps) c = (cs, rs, ps) := by
          simp [insStep, hri, hai]
        rw [hs, ih]
        simp [insColsOf, insRetsOf, insPhsOf, hri, hai, List.filter_cons]
      · have hs : insStep driver (cs, rs, ps) c
            = (cs ++ [quoteColumn c.DBField driver], rs,
               ps ++ [":" ++ c.DBField]) := by
          simp [insStep, hri, hai]
        rw [hs, ih]
        simp [insColsOf, insRetsOf, insPhsOf, hri, hai, List.filter_cons]

/-- Closed form of `insertStatement`. -/
theorem insertStatement_eq (md : Metadata) (driver : String) :
    insertStatement md driver
      = "INSERT INTO " ++ quoteIdentifier md.TableName driver
        ++ " (" ++ sepJoin ", " (insColsOf driver md.Columns)
        ++ ") VALUES (" ++ sepJoin ", " (insPhsOf md.Columns) ++ ")"
        ++ retTail (insRetsOf driver md.Columns) := by
  simp only [insertStatement]
  rw [insFold_eq]
  simp only [List.nil_append]
  rcases h : insRetsOf driver md.Columns with _ | ⟨r, rs⟩
  · simp [retTail, str_append_empty]
  · simp [retTail, str_assoc]

/-! ## Characterization of the update column loop -/

theorem updSetFold_eq (driver : String) (cols : List Column) :
    ∀ (rs : List String) (stmt : String) (set : Bool),
      cols.foldl (updSetStep driver) (rs, stmt, set)
        = (rs ++ updRetsOf driver cols,
           stmt ++ (if set
             then strConcat ((setColsOf cols).map (fun c => ", " ++ eqItem driver c))
             else setClause driver (setColsOf cols)),
           set || !(setColsOf cols).isEmpty) := by
  induction cols with
  | nil =>
    intro rs stmt set
    cases set <;>
      simp [updRetsOf, setColsOf, setClause, strConcat, str_append_empty]
  | cons c cols ih =>
    intro rs stmt set
    show cols.foldl (updSetStep driver) (updSetStep driver (rs, stmt, set) c) = _
    by_cases hru : c.ReturningUpdate
    · have hs : updSetStep driver (rs, stmt, set) c
          = (rs ++ [quoteColumn c.DBField driver], stmt, set) := by
        simp [updSetStep, hru]
      rw [hs, ih]
      simp [updRetsOf, setColsOf, hru, List.filter_cons]
    · by_cases hfu : c.RefuseUpdate
      · have hs : updSetStep driver (rs, stmt, set) c = (rs, stmt, set) := by
          simp [updSetStep, hru, hfu]
        rw [hs, ih]
        simp [updRetsOf, setColsOf, hru, hfu, List.filter_cons]
      · have hsc : setColsOf (c :: cols) = c :: setColsOf cols := by
          simp [setColsOf, List.filter_cons, hru, hfu]
        cases set with
        | true =>
          have hs : updSetStep driver (rs, stmt, true) c
              = (rs, stmt ++ (", " ++ eqItem driver c), true) := by
            simp [updSetStep, hru, hfu]
          rw [hs, ih]
          simp [hsc, updRetsOf, setColsOf, List.filter_cons, hru, hfu,
            strConcat, str_assoc]
        | false =>
          have hs : updSetStep driver (rs, stmt, false) c
              = (rs, stmt ++ (" " ++ eqItem driver c), true) := by
            simp [updSetStep, hru, hfu]
          rw [hs, ih]
          simp [hsc, updRetsOf, setColsOf, List.filter_cons, hru, hfu,
            setClause, strConcat, str_assoc]

/-- Closed form of `updateStatement`. -/
theorem updateStatement_eq (md : Metadata) (driver : String) :
    updateStatement md driver
      = "UPDATE " ++ quoteIdentifier md.TableName driver ++ " SET"
        ++ setClause driver (setColsOf md.Columns)
        ++ updWhereTail md driver
        ++ retTail (updRetsOf driver md.Columns) := by
  simp only [updateStatement]
  rw [updSetFold_eq]
  simp only [List.nil_append, if_false, Bool.false_or]
  rw [updPkFold_eq]
  rcases h : updRetsOf driver md.Columns with _ | ⟨r, rs⟩
  · simp [retTail, str_append_empty]
  · simp [retTail, str_assoc]

/-! ## Lemmas about the quoting character operations -/

theorem removeChar_append (q : Char) (a b : List Char) :
    removeChar q (a ++ b) = removeChar q a ++ removeChar q b := by
  induction a with
  | nil => rfl
  | cons c cs ih =>
    by_cases h : c = q <;> simp [removeChar, h, ih]

theorem not_mem_removeChar (q : Char) (l : List Char) :
    q ∉ removeChar q l := by
  induction l with
  | nil => simp [removeChar]
  | cons c cs ih =>
    by_cases h : c = q
    · simpa [removeChar, h] using ih
    · simpa [removeChar, h, Ne.symm h] using ih

theorem removeChar_of_not_mem (q : Char) (l : List Char) (h : q ∉ l) :
    removeChar q l = l := by
  induction l with
  | nil => rfl
  | cons c cs ih =>
    simp only [List.mem_cons, not_or] at h
    simp [removeChar, Ne.symm h.1, ih h.2]

theorem splitOnChar_ne_nil (sep : Char) (l : List Char) :
    splitOnChar sep l ≠ [] := by
  cases l with
  | nil => simp [splitOnChar]
  | cons c cs =>
    simp only [splitOnChar]
    split <;> simp

theorem splitOnChar_parts_no_sep (sep : Char) (l : List Char) :
    ∀ p ∈ splitOnChar sep l, sep ∉ p := by
  induction l with
  | nil => simp [splitOnChar]
  | cons c cs ih =>
    intro p hp
    rcases hs : splitOnChar sep cs with _ | ⟨h, t⟩
    · exact absurd hs (splitOnChar_ne_nil sep cs)
    · simp only [splitOnChar, hs, List.headI, List.tail_cons] at hp
      by_cases hc : c = sep
      · rw [if_pos hc, List.mem_cons] at hp
        rcases hp with hp | hp
        · simp [hp]
        · exact ih p (hs ▸ hp)
      · rw [if_neg hc, List.mem_cons] at hp
        rcases hp with hp | hp
        · subst hp
          have hh : sep ∉ h := ih h (hs ▸ List.mem_cons_self h t)
          simp only [List.mem_cons, not_or]
          exact ⟨Ne.symm hc, hh⟩
        · exact ih p (hs ▸ List.mem_cons_of_mem h hp)

theorem splitOnChar_parts_subset (sep : Char) (l : List Char) :
    ∀ p ∈ splitOnChar sep l, ∀ x ∈ p, x ∈ l := by
  induction l with
  | nil => simp [splitOnChar]
  | cons c cs ih =>
    intro p hp x hx
    rcases hs : splitOnChar sep cs with _ | ⟨h, t⟩
    · exact absurd hs (splitOnChar_ne_nil sep cs)
    · simp only [splitOnChar, hs, List.headI, List.tail_cons] at hp
      by_cases hc : c = sep
      · rw [if_pos hc, List.mem_cons] at hp
        rcases hp with hp | hp
        · subst hp; simp at hx
        · exact List.mem_cons_of_mem c (ih p (hs ▸ hp) x hx)
      · rw [if_neg hc, List.mem_cons] at hp
        rcases hp with hp | hp
        · subst hp
          rw [List.mem_cons] at hx
          rcases hx with hx | hx
          · simp [hx]
          · exact List.mem_cons_of_mem c
              (ih h (hs ▸ List.mem_cons_self h t) x hx)
        · exact List.mem_cons_of_mem c
            (ih p (hs ▸ List.mem_cons_of_mem h hp) x hx)

theorem splitOnChar_no_sep (sep : Char) (l : List Char) (h : sep ∉ l) :
    splitOnChar sep l = [l] := by
  induction l with
  | nil => rfl
  | cons c cs ih =>
    simp only [List.mem_cons, not_or] at h
    simp only [splitOnChar, ih h.2, List.headI, List.tail_cons]
    rw [if_neg (Ne.symm h.1)]

theorem splitOnChar_append_sep (sep : Char) (p rest : List Char)
    (hp : sep ∉ p) :
    splitOnChar sep (p ++ sep :: rest) = p :: splitOnChar sep rest := by
  induction p with
  | nil =>
    simp [splitOnChar]
  | cons c cs ih =>
    simp only [List.mem_cons, not_or] at hp
    have hcs := ih hp.2
    have hstep : splitOnChar sep ((c :: cs) ++ sep :: rest)
        = (if c = sep then [] :: splitOnChar sep (cs ++ sep :: rest)
           else (c :: (splitOnChar sep (cs ++ sep :: rest)).headI) ::
             (splitOnChar sep (cs ++ sep :: rest)).tail) := rfl
    rw [hstep, hcs, if_neg (Ne.symm hp.1)]
    rfl

theorem splitOnChar_joinWith (sep : Char) (parts : List (List Char))
    (hne : parts ≠ []) (h : ∀ p ∈ parts, sep ∉ p) :
    splitOnChar sep (joinWith sep parts) = parts := by
  induction parts with
  | nil => exact absurd rfl hne
  | cons p ps ih =>
    cases ps with
    | nil =>
      show splitOnChar sep p = [p]
      exact splitOnChar_no_sep sep p (h p (List.mem_cons_self p []))
    | cons q qs =>
      show splitOnChar sep (p ++ sep :: joinWith sep (q :: qs)) = _
      rw [splitOnChar_append_sep sep p _ (h p (List.mem_cons_self p _))]
      rw [ih (by simp) (fun r hr => h r (List.mem_cons_of_mem p hr))]

theorem removeChar_joinWith (q sep : Char) (hne : q ≠ sep)
    (ps : List (List Char)) :
    removeChar q (joinWith sep ps) = joinWith sep (ps.map (removeChar q)) := by
  induction ps with
  | nil => rfl
  | cons p ps ih =>
    cases ps with
    | nil => rfl
    | cons r rs =>
      show removeChar q (p ++ sep :: joinWith sep (r :: rs)) = _
      rw [removeChar_append]
      have hsep : removeChar q (sep :: joinWith sep (r :: rs))
          = sep :: removeChar q (joinWith sep (r :: rs)) := by
        simp [removeChar, Ne.symm hne]
      rw [hsep, ih]
      rfl

/-- Stripping the quote symbol undoes the wrapping `quoteIdentifier`
applies to one segment. -/
theorem removeChar_wrapSeg (sym : Char) (p : List Char)
    (hp : sym ∉ p) (hstar : sym ≠ '*') :
    removeChar sym (if p = ['*'] then p else sym :: (p ++ [sym])) = p := by
  by_cases h : p = ['*']
  · subst h
    simp [removeChar, hstar, Ne.symm hstar]
  · rw [if_neg h]
    show removeChar sym (sym :: (p ++ [sym])) = p
    simp only [removeChar, if_pos rfl]
    rw [removeChar_append, removeChar_of_not_mem sym p hp]
    simp [removeChar]

theorem quoteSym_ne_dot (driver : String) : quoteSym driver ≠ '.' := by
  unfold quoteSym
  split <;> decide

theorem quoteSym_ne_star (driver : String) : quoteSym driver ≠ '*' := by
  unfold quoteSym
  split <;> decide

/-- Applying `quoteIdentifier` to a name assembled from dot-free, symbol-free
segments wraps each segment other than `*` in the dialect's quote symbol
and leaves `*` segments bare. -/
theorem quoteIdentifier_parts (driver : String) (parts : List (List Char))
    (hne : parts ≠ []) (h : ∀ p ∈ parts, '.' ∉ p ∧ quoteSym driver ∉ p) :
    quoteIdentifier (String.mk (joinWith '.' parts)) driver
      = String.mk (joinWith '.' (parts.map (fun s => if s = ['*'] then s
          else quoteSym driver :: (s ++ [quoteSym driver])))) := by
  have hmap : parts.map (removeChar (quoteSym driver)) = parts := by
    have h1 : parts.map (removeChar (quoteSym driver)) = parts.map id :=
      List.map_congr_left (fun p hp => removeChar_of_not_mem _ _ (h p hp).2)
    rw [h1, List.map_id]
  show String.mk (joinWith '.'
      ((splitOnChar '.' (removeChar (quoteSym driver) (joinWith '.' parts))).map
        (fun s => if s = ['*'] then s
          else quoteSym driver :: (s ++ [quoteSym driver])))) = _
  rw [removeChar_joinWith _ _ (quoteSym_ne_dot driver), hmap,
    splitOnChar_joinWith '.' parts hne (fun p hp => (h p hp).1)]

/-- An ordinary identifier character: printable ASCII, not the double
quote, not the backslash. Go's `%q` leaves such characters unescaped. -/
def PlainChar (c : Char) : Prop :=
  32 ≤ c.toNat ∧ c.toNat ≤ 126 ∧ c ≠ dq ∧ c ≠ Char.ofNat 92

instance (c : Char) : Decidable (PlainChar c) := by
  unfold PlainChar; infer_instance

theorem char_ne_of_toNat_ne {c d : Char} (h : c.toNat ≠ d.toNat) : c ≠ d :=
  fun he => h (congrArg Char.toNat he)

theorem goQuoteChar_plain (c : Char) (h : PlainChar c) : goQuoteChar c = [c] := by
  obtain ⟨h1, h2, h3, h4⟩ := h
  have h7 : c ≠ Char.ofNat 7 := char_ne_of_toNat_ne (by
    rw [show (Char.ofNat 7).toNat = 7 from by decide]; omega)
  have h8 : c ≠ Char.ofNat 8 := char_ne_of_toNat_ne (by
    rw [show (Char.ofNat 8).toNat = 8 from by decide]; omega)
  have h12 : c ≠ Char.ofNat 12 := char_ne_of_toNat_ne (by
    rw [show (Char.ofNat 12).toNat = 12 from by decide]; omega)
  have h10 : c ≠ Char.ofNat 10 := char_ne_of_toNat_ne (by
    rw [show (Char.ofNat 10).toNat = 10 from by decide]; omega)
  have h13 : c ≠ Char.ofNat 13 := char_ne_of_toNat_ne (by
    rw [show (Char.ofNat 13).toNat = 13 from by decide]; omega)
  have h9 : c ≠ Char.ofNat 9 := char_ne_of_toNat_ne (by
    rw [show (Char.ofNat 9).toNat = 9 from by decide]; omega)
  have h11 : c ≠ Char.ofNat 11 := char_ne_of_toNat_ne (by
    rw [show (Char.ofNat 11).toNat = 11 from by decide]; omega)
  have hx : ¬(c.toNat < 32 ∨ c.toNat = 127) := by omega
  unfold goQuoteChar
  rw [if_neg h3, if_neg h4, if_neg h7, if_neg h8, if_neg h12, if_neg h10,
    if_neg h13, if_neg h9, if_neg h11, if_neg hx]

theorem goQuote_plain (s : String) (h : ∀ c ∈ s.toList, PlainChar c) :
    goQuote s = "\"" ++ s ++ "\"" := by
  have hmap : s.toList.map goQuoteChar = s.toList.map (fun c => [c]) :=
    List.map_congr_left (fun c hc => goQuoteChar_plain c (h c hc))
  have hjoin : ∀ l : List Char, (l.map (fun c => [c])).flatten = l := by
    intro l
    induction l with
    | nil => rfl
    | cons c cs ih => simp [ih]
  show String.mk (dq :: ((s.toList.map goQuoteChar).flatten ++ [dq])) = _
  rw [hmap, hjoin]
  cases s with
  | mk l =>
    rw [show ("\"" : String) = String.mk [dq] from by decide]
    exact congrArg String.mk (by simp)

/-! ## Literal-merging lemmas -/

theorem where_space_merge (X : String) :
    " WHERE" ++ (" " ++ X) = " WHERE " ++ X := by
  rw [← str_assoc, show (" WHERE" ++ " " : String) = " WHERE " from by decide]

theorem set_where_merge (X : String) :
    " SET" ++ (" WHERE " ++ X) = " SET WHERE " ++ X := by
  rw [← str_assoc, show (" SET" ++ " WHERE " : String) = " SET WHERE " from by decide]

/-! ## Concrete fixtures used by witnesses and counterexamples -/

/-- An auto-increment primary-key column. -/
def colIdAuto : Column :=
  { DBField := "id", AutoIncrement := true, RefuseUpdate := true }

/-- A plain data column. -/
def colEmail : Column := { DBField := "email" }

/-- A primary-key column excluded from updates. -/
def colIdRefuse : Column := { DBField := "id", RefuseUpdate := true }

/-- A column populated from an UPDATE ... RETURNING clause. -/
def colVRet : Column := { DBField := "v", ReturningUpdate := true }

/-- Account-like metadata with an auto-increment key and no returning
columns. -/
def mdAccount : Metadata :=
  { type := 1, TableName := "account",
    Columns := [colIdAuto, colEmail], PrimaryKeys := [colIdAuto] }

/-- Metadata whose every column is ReturningUpdate or RefuseUpdate. -/
def mdRetOnly : Metadata :=
  { type := 4, TableName := "t",
    Columns := [colIdRefuse, colVRet], PrimaryKeys := [colIdRefuse] }

/-- Single-column metadata for execution-protocol witnesses. -/
def mdSimple : Metadata :=
  { type := 3, TableName := "w",
    Columns := [{ DBField := "id" }], PrimaryKeys := [{ DBField := "id" }] }

/-- Two-column, one-key metadata for statement-builder witnesses. -/
def mdSimple2 : Metadata :=
  { type := 5, TableName := "acct",
    Columns := [{ DBField := "id" }, { DBField := "email" }],
    PrimaryKeys := [{ DBField := "id" }] }

/-- A query result with no rows. -/
def rwsEmpty : QueryRows := { hasRow := false, scanErr := none, rowsErr := none }

/-- An execution result affecting zero rows, with error-free accessors. -/
def erZero : ExecResult :=
  { lastId := 0, lastIdErr := none, affected := 0, affectedErr := none }

/-- A MySQL handle whose executions succeed and report last-insert-id 7
with a nil error. -/
def dbMysqlOk : DBConn :=
  { DriverName := "mysql",
    query := fun _ => Except.error (GoErr.simple "query unused"),
    exec := fun _ => Except.ok
      { lastId := 7, lastIdErr := none, affected := 1, affectedErr := none } }

/-- A SQLite handle returning zero rows and zero affected rows. -/
def dbSqliteEmpty : DBConn :=
  { DriverName := "sqlite3",
    query := fun _ => Except.ok rwsEmpty,
    exec := fun _ => Except.ok erZero }

/-- A second MySQL handle, distinguishable from `dbMysqlOk` only through
its outcomes. -/
def dbMysqlEmpty : DBConn :=
  { DriverName := "mysql",
    query := fun _ => Except.ok rwsEmpty,
    exec := fun _ => Except.ok erZero }

/-- A PostgreSQL handle (via the "pgx" alias) returning zero rows. -/
def dbPgxEmpty : DBConn :=
  { DriverName := "pgx",
    query := fun _ => Except.ok rwsEmpty,
    exec := fun _ => Except.ok erZero }

/-! ## The claims -/

/-- C1 (code bug in src/db.go:138-139): for a non-PostgreSQL dialect
insert without returning columns whose execution succeeds and whose
driver reports a last-insert-id with a nil error, `doInsert` does return
that id, but with a NON-nil error: the code wraps the nil
`LastInsertId()` error with `fmt.Errorf("get last insert id, %w", err)`
unconditionally, so the claimed nil error is impossible. Evaluated here
at the failing input: MySQL dialect, successful execution, last-insert-id
7 with nil error. -/
theorem doInsert_wraps_nil_lastInsertId_error :
    (doInsert (Except.ok mdAccount) dbMysqlOk []).1
      = (7, some (GoErr.simple "get last insert id, %!w(<nil>)"))
    ∧ (doInsert (Except.ok mdAccount) dbMysqlOk []).1.2 ≠ none := by
  constructor
  · rfl
  · decide

/-- C2: a load whose query yields zero rows returns `sql.ErrNoRows`; an
update without returning columns whose execution affects zero rows
returns `sql.ErrNoRows`; a delete whose execution succeeds returns no
error regardless of the affected-row count. -/
theorem notFound_semantics (md : Metadata) (db : DBConn)
    (c1 c2 c3 : StmtCache) (rws : QueryRows) (er erD : ExecResult)
    (hq : db.query (getOrBuild c1 md.type
      (selectStatement md (dbDriver db))).1 = Except.ok rws)
    (hr : rws.hasRow = false)
    (hU : md.hasReturningUpdate = false)
    (he : db.exec (getOrBuild c2 md.type
      (updateStatement md (dbDriver db))).1 = Except.ok er)
    (haf : er.affectedErr = none) (h0 : er.affected = 0)
    (heD : db.exec (getOrBuild c3 md.type
      (deleteStatement md (dbDriver db))).1 = Except.ok erD) :
    (doLoad (Except.ok md) db c1).1 = some GoErr.sqlErrNoRows
    ∧ (doUpdate (Except.ok md) db c2).1 = some GoErr.sqlErrNoRows
    ∧ (doDelete (Except.ok md) db c3).1 = none := by
  refine ⟨?_, ?_, ?_⟩
  · simp [doLoad, loadExec, rowScanResult, hq, hr]
  · simp [doUpdate, updateExec, hU, he, haf, h0]
  · simp [doDelete, deleteExec, heD]

/-- C2 witness: the not-found semantics at a concrete single-column
entity against a SQLite handle returning zero rows and zero affected
rows. -/
theorem notFound_semantics_witness :
    (doLoad (Except.ok mdSimple) dbSqliteEmpty []).1 = some GoErr.sqlErrNoRows
    ∧ (doUpdate (Except.ok mdSimple) dbSqliteEmpty []).1 = some GoErr.sqlErrNoRows
    ∧ (doDelete (Except.ok mdSimple) dbSqliteEmpty []).1 = none :=
  notFound_semantics mdSimple dbSqliteEmpty [] [] [] rwsEmpty erZero erZero
    rfl rfl rfl rfl rfl rfl rfl

/-- C3: the insert statement's column list and placeholder list are
exactly the non-ReturningInsert, non-AutoIncrement columns (so every
AutoIncrement column and every ReturningInsert column is excluded from
both), the RETURNING clause carries exactly the ReturningInsert columns,
and it is appended iff some column is flagged ReturningInsert. -/
theorem insertStatement_spec (md : Metadata) (d : String) :
    insertStatement md d
      = "INSERT INTO " ++ quoteIdentifier md.TableName d
        ++ " (" ++ sepJoin ", " (insColsOf d md.Columns)
        ++ ") VALUES (" ++ sepJoin ", " (insPhsOf md.Columns) ++ ")"
        ++ retTail (insRetsOf d md.Columns)
    ∧ (insRetsOf d md.Columns = [] ↔ ∀ c ∈ md.Columns, c.ReturningInsert = false) := by
  refine ⟨insertStatement_eq md d, ?_⟩
  simp [insRetsOf, List.map_eq_nil_iff, List.filter_eq_nil_iff]

/-- C4 counterexample: for metadata with a ReturningUpdate column the
update statement does NOT end with the primary-key equality predicate -
the RETURNING clause follows it - so the claim's "ends with" clause
fails. Concretely `UPDATE "t" SET WHERE "id" = :id RETURNING "v"` does
not have the non-empty suffix `"id" = :id`. -/
theorem updateStatement_not_endsWith_pk_cex :
    pkPredicate mdRetOnly driverPostgres ≠ ""
    ∧ (pkPredicate mdRetOnly driverPostgres).toList.isSuffixOf
        (updateStatement mdRetOnly driverPostgres).toList = false := by
  constructor
  · decide
  · decide

/-- C4 as amended: the update statement excludes every RefuseUpdate and
every ReturningUpdate column from SET (the SET items are exactly the
columns flagged neither way), places ReturningUpdate columns only in the
RETURNING clause, comma-joins SET items with no leading comma on the
first, and follows the SET items with the same AND-joined primary-key
equality predicate (`pkPredicate`) the select builder uses; the
RETURNING clause, when some column is flagged ReturningUpdate, comes
after that predicate (the statement ends with the predicate only when no
column is flagged ReturningUpdate). -/
theorem updateStatement_spec (md : Metadata) (d : String) :
    updateStatement md d
      = "UPDATE " ++ quoteIdentifier md.TableName d ++ " SET"
        ++ setClause d (setColsOf md.Columns)
        ++ updWhereTail md d
        ++ retTail (updRetsOf d md.Columns)
    ∧ selectStatement md d
      = "SELECT " ++ sepJoin ", " (md.Columns.map (fun c => quoteColumn c.DBField d))
        ++ " FROM " ++ quoteIdentifier md.TableName d ++ " WHERE"
        ++ selWhereTail md d ++ " LIMIT 1" :=
  ⟨updateStatement_eq md d, selectStatement_eq md d⟩

/-- C5: for metadata with at least one primary key and a non-key column,
the select statement lists all columns in `Columns` order and its WHERE
clause is the AND-joined equality predicates of `PrimaryKeys`, in order,
one per key, followed by `LIMIT 1`. -/
theorem selectStatement_spec (md : Metadata) (d : String)
    (hpk : md.PrimaryKeys ≠ [])
    (_hnk : ∃ c ∈ md.Columns, c ∉ md.PrimaryKeys) :
    selectStatement md d
      = "SELECT " ++ sepJoin ", " (md.Columns.map (fun c => quoteColumn c.DBField d))
        ++ " FROM " ++ quoteIdentifier md.TableName d
        ++ " WHERE " ++ pkPredicate md d ++ " LIMIT 1"
    ∧ (md.PrimaryKeys.map (eqItem d)).length = md.PrimaryKeys.length := by
  constructor
  · rw [selectStatement_eq md d, selWhereTail, if_neg hpk]
    simp only [str_assoc]
    rw [where_space_merge]
  · simp

/-- C5 witness at a two-column, one-key entity on the PostgreSQL
dialect. -/
theorem selectStatement_spec_witness :
    selectStatement mdSimple2 driverPostgres
      = "SELECT " ++ sepJoin ", "
          (mdSimple2.Columns.map (fun c => quoteColumn c.DBField driverPostgres))
        ++ " FROM " ++ quoteIdentifier mdSimple2.TableName driverPostgres
        ++ " WHERE " ++ pkPredicate mdSimple2 driverPostgres ++ " LIMIT 1"
    ∧ (mdSimple2.PrimaryKeys.map (eqItem driverPostgres)).length
        = mdSimple2.PrimaryKeys.length :=
  selectStatement_spec mdSimple2 driverPostgres (by decide) (by decide)

/-- C6: `quoteIdentifier` is idempotent for every identifier and every
dialect, because it strips the dialect's quote symbol before
re-quoting. -/
theorem quoteIdentifier_idempotent (name driver : String) :
    quoteIdentifier (quoteIdentifier name driver) driver
      = quoteIdentifier name driver := by
  have hd : quoteSym driver ≠ '.' := quoteSym_ne_dot driver
  have hstar : quoteSym driver ≠ '*' := quoteSym_ne_star driver
  set parts := splitOnChar '.' (removeChar (quoteSym driver) name.toList)
    with hparts
  have hne : parts ≠ [] := splitOnChar_ne_nil _ _
  have hdot : ∀ p ∈ parts, '.' ∉ p := splitOnChar_parts_no_sep _ _
  have hsymf : ∀ p ∈ parts, quoteSym driver ∉ p := fun p hp hx =>
    not_mem_removeChar (quoteSym driver) name.toList
      (splitOnChar_parts_subset '.' _ p hp _ hx)
  show String.mk (joinWith '.'
      ((splitOnChar '.' (removeChar (quoteSym driver)
        (quoteIdentifier name driver).toList)).map
        (fun s => if s = ['*'] then s
          else quoteSym driver :: (s ++ [quoteSym driver])))) = _
  have hin : (quoteIdentifier name driver).toList
      = joinWith '.' (parts.map (fun s => if s = ['*'] then s
          else quoteSym driver :: (s ++ [quoteSym driver]))) := rfl
  rw [hin, removeChar_joinWith _ _ hd, List.map_map]
  have hclean : parts.map ((removeChar (quoteSym driver)) ∘
      (fun s => if s = ['*'] then s
        else quoteSym driver :: (s ++ [quoteSym driver]))) = parts := by
    have h1 : parts.map ((removeChar (quoteSym driver)) ∘
        (fun s => if s = ['*'] then s
          else quoteSym driver :: (s ++ [quoteSym driver]))) = parts.map id :=
      List.map_congr_left (fun p hp =>
        removeChar_wrapSeg (quoteSym driver) p (hsymf p hp) hstar)
    rw [h1, List.map_id]
  rw [hclean, splitOnChar_joinWith '.' parts hne hdot]
  exact congrArg String.mk hin.symm

/-- C7: for the MySQL dialect `quoteColumn` wraps the name in backticks
and `quoteIdentifier` uses the backtick symbol; for every other dialect
`quoteColumn` wraps a plain name in double quotes and `quoteIdentifier`
uses the double-quote symbol; and `quoteIdentifier` wraps every dot
segment in the symbol except a `*` segment, which stays bare. -/
theorem quoting_symbols_spec :
    (∀ name : String, quoteColumn name driverMysql = "`" ++ name ++ "`")
    ∧ (∀ name d : String, d ≠ driverMysql → (∀ c ∈ name.toList, PlainChar c) →
        quoteColumn name d = "\"" ++ name ++ "\"")
    ∧ quoteSym driverMysql = bq
    ∧ (∀ d : String, d ≠ driverMysql → quoteSym d = dq)
    ∧ (∀ (d : String) (parts : List (List Char)), parts ≠ [] →
        (∀ p ∈ parts, '.' ∉ p ∧ quoteSym d ∉ p) →
        quoteIdentifier (String.mk (joinWith '.' parts)) d
          = String.mk (joinWith '.' (parts.map (fun s => if s = ['*'] then s
              else quoteSym d :: (s ++ [quoteSym d]))))) := by
  refine ⟨fun name => by simp [quoteColumn], ?_, by simp [quoteSym], ?_, ?_⟩
  · intro name d hd hpl
    rw [quoteColumn, if_neg hd]
    exact goQuote_plain name hpl
  · intro d hd
    simp [quoteSym, hd]
  · intro d parts hne h
    exact quoteIdentifier_parts d parts hne h

/-- C7 witness: backtick wrapping on MySQL, double-quote wrapping on
PostgreSQL, and segment-wise quoting with a bare trailing wildcard. -/
theorem quoting_symbols_spec_witness :
    quoteColumn "name" driverMysql = "`" ++ "name" ++ "`"
    ∧ quoteColumn "name" driverPostgres = "\"" ++ "name" ++ "\""
    ∧ quoteIdentifier (String.mk (joinWith '.' [['d', 'b'], ['*']])) driverPostgres
      = String.mk (joinWith '.' ([['d', 'b'], ['*']].map (fun s => if s = ['*'] then s
          else quoteSym driverPostgres :: (s ++ [quoteSym driverPostgres])))) :=
  ⟨quoting_symbols_spec.1 "name",
   quoting_symbols_spec.2.1 "name" driverPostgres (by decide) (by decide),
   quoting_symbols_spec.2.2.2.2 driverPostgres [['d', 'b'], ['*']]
     (by decide) (by decide)⟩

/-- C8: on the PostgreSQL dialect `isConflictError` is exactly "the
message contains the PostgreSQL duplicate-key phrase", on MySQL exactly
"contains `Duplicate entry`", on SQLite exactly "contains
`UNIQUE constraint failed`" - true when the substring occurs, false
when it does not. -/
theorem isConflictError_spec (db : DBConn) (msg : String) :
    (dbDriver db = driverPostgres →
      isConflictError db (GoErr.simple msg)
        = strContains msg "duplicate key value violates unique constraint")
    ∧ (dbDriver db = driverMysql →
      isConflictError db (GoErr.simple msg)
        = strContains msg "Duplicate entry")
    ∧ (dbDriver db = driverSqlite3 →
      isConflictError db (GoErr.simple msg)
        = strContains msg "UNIQUE constraint failed") := by
  refine ⟨fun h => ?_, fun h => ?_, fun h => ?_⟩ <;>
    simp [isConflictError, GoErr.message, h, driverPostgres, driverMysql,
      driverSqlite3]

/-- C8 witness: a PostgreSQL handle (through the "pgx" alias) classifies
a duplicate-key message. -/
theorem isConflictError_spec_witness :
    isConflictError dbPgxEmpty
        (GoErr.simple "ERROR: duplicate key value violates unique constraint")
      = strContains "ERROR: duplicate key value violates unique constraint"
          "duplicate key value violates unique constraint" :=
  (isConflictError_spec dbPgxEmpty
    "ERROR: duplicate key value violates unique constraint").1 rfl

/-- C9: the statement caches are keyed by the entity type alone, for
every operation kind. After a first call against `db1` populates the
cache (with the statement built for `db1`'s dialect), a later call for
the same type against ANY handle `db2` - in particular one resolving to
a different dialect - executes the cached `db1`-dialect statement and
leaves the cache unchanged; the statement is never rebuilt. Shown for
all four caches: the select cache of `doLoad`, the insert cache of
`doInsert`, the update cache of `doUpdate` and the delete cache of
`doDelete`. -/
theorem statementCache_type_keyed (md : Metadata) (db1 db2 : DBConn)
    (cL cI cU cD : StmtCache)
    (hL : cL.lookup md.type = none) (hI : cI.lookup md.type = none)
    (hU : cU.lookup md.type = none) (hD : cD.lookup md.type = none) :
    ((doLoad (Except.ok md) db1 cL).2.lookup md.type
        = some (selectStatement md (dbDriver db1)))
    ∧ (doLoad (Except.ok md) db2 (doLoad (Except.ok md) db1 cL).2
        = (loadExec db2 (selectStatement md (dbDriver db1)),
           (doLoad (Except.ok md) db1 cL).2))
    ∧ ((doInsert (Except.ok md) db1 cI).2.lookup md.type
        = some (insertStatement md (dbDriver db1)))
    ∧ (doInsert (Except.ok md) db2 (doInsert (Except.ok md) db1 cI).2
        = (insertExec md db2 (insertStatement md (dbDriver db1)),
           (doInsert (Except.ok md) db1 cI).2))
    ∧ ((doUpdate (Except.ok md) db1 cU).2.lookup md.type
        = some (updateStatement md (dbDriver db1)))
    ∧ (doUpdate (Except.ok md) db2 (doUpdate (Except.ok md) db1 cU).2
        = (updateExec md db2 (updateStatement md (dbDriver db1)),
           (doUpdate (Except.ok md) db1 cU).2))
    ∧ ((doDelete (Except.ok md) db1 cD).2.lookup md.type
        = some (deleteStatement md (dbDriver db1)))
    ∧ (doDelete (Except.ok md) db2 (doDelete (Except.ok md) db1 cD).2
        = (deleteExec db2 (deleteStatement md (dbDriver db1)),
           (doDelete (Except.ok md) db1 cD).2)) := by
  have hc1 : (doLoad (Except.ok md) db1 cL).2
      = (md.type, selectStatement md (dbDriver db1)) :: cL := by
    simp [doLoad, getOrBuild, hL]
  have hc2 : (doInsert (Except.ok md) db1 cI).2
      = (md.type, insertStatement md (dbDriver db1)) :: cI := by
    simp [doInsert, getOrBuild, hI]
  have hc3 : (doUpdate (Except.ok md) db1 cU).2
      = (md.type, updateStatement md (dbDriver db1)) :: cU := by
    simp [doUpdate, getOrBuild, hU]
  have hc4 : (doDelete (Except.ok md) db1 cD).2
      = (md.type, deleteStatement md (dbDriver db1)) :: cD := by
    simp [doDelete, getOrBuild, hD]
  refine ⟨?_, ?_, ?_, ?_, ?_, ?_, ?_, ?_⟩
  · rw [hc1]; simp [List.lookup]
  · rw [hc1]; simp [doLoad, getOrBuild, List.lookup]
  · rw [hc2]; simp [List.lookup]
  · rw [hc2]; simp [doInsert, getOrBuild, List.lookup]
  · rw [hc3]; simp [List.lookup]
  · rw [hc3]; simp [doUpdate, getOrBuild, List.lookup]
  · rw [hc4]; simp [List.lookup]
  · rw [hc4]; simp [doDelete, getOrBuild, List.lookup]

/-- C9 witness: for each of the four operation kinds, a first call on a
MySQL handle and a second call on a PostgreSQL handle, starting from
empty caches. -/
theorem statementCache_type_keyed_witness :
    ((doLoad (Except.ok mdSimple) dbMysqlEmpty []).2.lookup mdSimple.type
        = some (selectStatement mdSimple (dbDriver dbMysqlEmpty)))
    ∧ (doLoad (Except.ok mdSimple) dbPgxEmpty
          (doLoad (Except.ok mdSimple) dbMysqlEmpty []).2
        = (loadExec dbPgxEmpty (selectStatement mdSimple (dbDriver dbMysqlEmpty)),
           (doLoad (Except.ok mdSimple) dbMysqlEmpty []).2))
    ∧ ((doInsert (Except.ok mdSimple) dbMysqlEmpty []).2.lookup mdSimple.type
        = some (insertStatement mdSimple (dbDriver dbMysqlEmpty)))
    ∧ (doInsert (Except.ok mdSimple) dbPgxEmpty
          (doInsert (Except.ok mdSimple) dbMysqlEmpty []).2
        = (insertExec mdSimple dbPgxEmpty
             (insertStatement mdSimple (dbDriver dbMysqlEmpty)),
           (doInsert (Except.ok mdSimple) dbMysqlEmpty []).2))
    ∧ ((doUpdate (Except.ok mdSimple) dbMysqlEmpty []).2.lookup mdSimple.type
        = some (updateStatement mdSimple (dbDriver dbMysqlEmpty)))
    ∧ (doUpdate (Except.ok mdSimple) dbPgxEmpty
          (doUpdate (Except.ok mdSimple) dbMysqlEmpty []).2
        = (updateExec mdSimple dbPgxEmpty
             (updateStatement mdSimple (dbDriver dbMysqlEmpty)),
           (doUpdate (Except.ok mdSimple) dbMysqlEmpty []).2))
    ∧ ((doDelete (Except.ok mdSimple) dbMysqlEmpty []).2.lookup mdSimple.type
        = some (deleteStatement mdSimple (dbDriver dbMysqlEmpty)))
    ∧ (doDelete (Except.ok mdSimple) dbPgxEmpty
          (doDelete (Except.ok mdSimple) dbMysqlEmpty []).2
        = (deleteExec dbPgxEmpty (deleteStatement mdSimple (dbDriver dbMysqlEmpty)),
           (doDelete (Except.ok mdSimple) dbMysqlEmpty []).2)) :=
  statementCache_type_keyed mdSimple dbMysqlEmpty dbPgxEmpty [] [] [] []
    rfl rfl rfl rfl

/-- C10: when every column is flagged ReturningUpdate or RefuseUpdate
the builder still produces a statement, with no SET item at all: with
primary keys present the text reads `... SET WHERE ...` - the builder
does not guard against an empty SET list. -/
theorem updateStatement_empty_set (md : Metadata) (d : String)
    (hall : ∀ c ∈ md.Columns, c.ReturningUpdate = true ∨ c.RefuseUpdate = true)
    (hpk : md.PrimaryKeys ≠ []) :
    updateStatement md d
      = "UPDATE " ++ quoteIdentifier md.TableName d ++ " SET WHERE "
        ++ pkPredicate md d ++ retTail (updRetsOf d md.Columns) := by
  have hset : setColsOf md.Columns = [] := by
    simp only [setColsOf, List.filter_eq_nil_iff]
    intro c hc
    rcases hall c hc with h | h <;> simp [h]
  rw [updateStatement_eq md d, hset,
    show setClause d [] = "" from rfl, str_append_empty,
    updWhereTail, if_neg hpk]
  simp only [str_assoc]
  rw [set_where_merge]

/-- C10 witness: the all-returning-or-refused fixture yields the literal
`SET WHERE` statement text. -/
theorem updateStatement_empty_set_witness :
    updateStatement mdRetOnly driverPostgres
      = "UPDATE " ++ quoteIdentifier mdRetOnly.TableName driverPostgres
        ++ " SET WHERE " ++ pkPredicate mdRetOnly driverPostgres
        ++ retTail (updRetsOf driverPostgres mdRetOnly.Columns) :=
  updateStatement_empty_set mdRetOnly driverPostgres (by decide) (by decide)

end Entity
